import Mathlib

/-!
Verification development for the MSGA Discord verification bot
(`MSGA-Discord/bot.py`).  The definitions below are a shallow embedding of
the bot's record store, external-lookup clients, role assignment, the
fast-loop tick `process_verified_codes`, the `/verify` command and the
`/cleanup` command.  External I/O (Mojang HTTP, Hypixel HTTP, Discord
guild/member/role state, wall-clock formatting) is passed in explicitly as
an environment; the JSON store is an association list from code to entry.
-/

namespace MSGA

/-- One verification record, mirroring the JSON dict written by the bot.
Fields the code may leave absent are `Option`; Python `None` and an absent
key are both modelled as `none`. -/
structure Entry where
  minecraft_username : String
  timestamp : Nat
  verified : Bool
  discord_user_id : Option String
  processed : Bool
  created_at : String
  guild_verified : Option Bool := none
  error : Option String := none
  verified_at : Option String := none
  guild_name : Option String := none
  guild_rank : Option String := none
  raw_rank : Option String := none
  join_date : Option String := none
deriving Repr, DecidableEq

/-- The JSON store: an insertion-ordered mapping from code to entry,
as a Python dict is. -/
abbrev Store := List (String × Entry)

/-- Python truthiness of `entry.get("discord_user_id")`: falsy when the key
is absent (`None`) or the value is the empty string. -/
def uidFalsy : Option String → Bool
  | none => true
  | some s => s == ""

def lookupStore (data : Store) (code : String) : Option Entry :=
  (data.find? (fun p => p.1 == code)).map Prod.snd

/-- In-place mutation `data[code][...] = ...` of the entry under `code`. -/
def updateStore (data : Store) (code : String) (f : Entry → Entry) : Store :=
  data.map (fun p => if p.1 == code then (p.1, f p.2) else p)

/-- `data[code] = e`: overwrites in place when the key exists, appends
otherwise (Python dict assignment keeps insertion order). -/
def storeInsert (data : Store) (code : String) (e : Entry) : Store :=
  if data.any (fun p => p.1 == code) then
    data.map (fun p => if p.1 == code then (p.1, e) else p)
  else data ++ [(code, e)]

/-- `(data.map Prod.fst).Nodup`: the dict's keys are distinct. -/
def nodupKeys (data : Store) : Prop := (data.map Prod.fst).Nodup

instance (data : Store) : Decidable (nodupKeys data) := by
  unfold nodupKeys; infer_instance

-- ==================== External lookup clients ====================

/-- A Mojang HTTP response body (status, and the JSON `id`/`name` fields
used on status 200). -/
structure MojangHttp where
  status : Nat
  id : String
  name : String
deriving Repr, DecidableEq

/-- What the `aiohttp` call in `get_minecraft_uuid` can produce. -/
inductive MojangResp where
  | http (r : MojangHttp)
  | timeout
  | exc (msg : String)
deriving Repr, DecidableEq

/-- Result dict of `get_minecraft_uuid`: `{"success": True, "uuid", "name"}`
or `{"success": False, "error"}`. -/
inductive UuidResult where
  | ok (uuid name : String)
  | err (error : String)
deriving Repr, DecidableEq

/-- `get_minecraft_uuid` (bot.py lines 74-92). -/
def get_minecraft_uuid : MojangResp → UuidResult
  | .http r =>
      if r.status == 200 then .ok r.id r.name
      else if r.status == 404 then .err "Minecraft account not found"
      else .err ("Mojang API error: " ++ toString r.status)
  | .timeout => .err "Mojang API timeout"
  | .exc m => .err m

/-- One element of the Hypixel guild `members` array. -/
structure GuildMember where
  uuid : String
  rank : Option String
  joined : Nat
deriving Repr, DecidableEq

/-- One element of the Hypixel guild `ranks` array. -/
structure RankDef where
  name : String
  priority : Nat
deriving Repr, DecidableEq

/-- The Hypixel `guild` object (the `_id` field is `idStr`). -/
structure HGuild where
  idStr : String
  name : String
  members : List GuildMember
  ranks : List RankDef
deriving Repr, DecidableEq

/-- What the `aiohttp` call in `check_guild_membership` can produce:
an HTTP response (status, the JSON `success` flag, the optional `guild`
object), a timeout, or another exception. -/
inductive HypixelResp where
  | http (status : Nat) (success : Bool) (guild : Option HGuild)
  | timeout
  | exc (msg : String)
deriving Repr, DecidableEq

/-- The success payload of `check_guild_membership`. -/
structure MembershipOk where
  guild_name : String
  guild_rank : String
  join_date : Option String
  raw_rank : Option String
deriving Repr, DecidableEq

inductive GuildResult where
  | ok (r : MembershipOk)
  | err (error : String)
deriving Repr, DecidableEq

/-- The rank-translation chain of `check_guild_membership` (bot.py lines
122-141): named Hypixel ranks map to the four role names, a custom rank is
an officer when its configured priority is at least 3, anything else
defaults to `"Guild Member"`. -/
def rankFromRaw (guild : HGuild) (rank : Option String) : String :=
  if rank == some "Guild Master" then "Guild Master"
  else if rank == some "Officer" then "Guild Officer"
  else if rank == some "Member" then "Guild Member"
  else if rank == some "Recruit" then "Guild Recruit"
  else
    match guild.ranks.find? (fun rd => some rd.name == rank) with
    | some rd => if rd.priority ≥ 3 then "Guild Officer" else "Guild Member"
    | none => "Guild Member"

/-- `check_guild_membership` (bot.py lines 94-170).  `fmtDate` stands for
the `datetime.fromtimestamp(...).strftime(...)` formatting of the joined
millisecond timestamp; a `joined` value of 0 is falsy in Python and is kept
unformatted, modelled as `none`. -/
def check_guild_membership (hypixelGuildId : String) (fmtDate : Nat → String)
    (uuid : String) (resp : HypixelResp) : GuildResult :=
  match resp with
  | .timeout => .err "Hypixel API timeout"
  | .exc m => .err m
  | .http status success guild? =>
      if status == 200 then
        if !success then .err "Hypixel API request failed"
        else
          match guild? with
          | none => .err "Player is not in any guild"
          | some guild =>
              if guild.idStr == hypixelGuildId then
                match guild.members.find? (fun m => m.uuid == uuid) with
                | some m =>
                    .ok { guild_name := guild.name
                        , guild_rank := rankFromRaw guild m.rank
                        , join_date :=
                            if m.joined != 0 then some (fmtDate m.joined) else none
                        , raw_rank := m.rank }
                | none =>
                    .ok { guild_name := guild.name
                        , guild_rank := "Guild Member"
                        , join_date := none
                        , raw_rank := some "Member" }
              else .err ("Player is in a different guild: " ++ guild.name)
      else .err ("Hypixel API error: " ++ toString status)

-- ==================== Role assignment ====================

/-- The four configured Discord role ids (`GUILD_ROLE_IDS`); an id of 0
means "not configured" (the env-var default). -/
structure RoleIds where
  guildMaster : Nat
  guildOfficer : Nat
  guildMember : Nat
  guildRecruit : Nat
deriving Repr, DecidableEq

/-- `GUILD_ROLE_IDS.values()` in insertion order. -/
def RoleIds.values (c : RoleIds) : List Nat :=
  [c.guildMaster, c.guildOfficer, c.guildMember, c.guildRecruit]

/-- `get_discord_role_for_guild_rank` (bot.py lines 172-174):
dict lookup with default `DEFAULT_GUILD_ROLE_ID = GUILD_ROLE_IDS["Guild Member"]`. -/
def get_discord_role_for_guild_rank (c : RoleIds) (rank : String) : Nat :=
  if rank == "Guild Master" then c.guildMaster
  else if rank == "Guild Officer" then c.guildOfficer
  else if rank == "Guild Member" then c.guildMember
  else if rank == "Guild Recruit" then c.guildRecruit
  else c.guildMember

/-- The Discord side seen by `assign_guild_rank_role`: which role ids exist
in the guild (`get_role` succeeds), and whether the remove/add calls raise
`discord.Forbidden` (any exception is caught the same way). -/
structure RoleSink where
  guildRoles : List Nat
  removeForbidden : Bool
  addForbidden : Bool
deriving Repr, DecidableEq

/-- `assign_guild_rank_role` (bot.py lines 176-216).  Returns the assigned
role id (`none` on failure, as the Python returns `None`) and the member's
resulting role list.  A failed removal is caught and execution continues;
a failed add returns `None` with the removals already applied. -/
def assign_guild_rank_role (c : RoleIds) (sink : RoleSink)
    (memberRoles : List Nat) (rank : String) : Option Nat × List Nat :=
  let role_id := get_discord_role_for_guild_rank c rank
  if role_id == 0 then (none, memberRoles)
  else if !(sink.guildRoles.contains role_id) then (none, memberRoles)
  else
    let existing := c.values.filter
      (fun r => r != 0 && sink.guildRoles.contains r && memberRoles.contains r)
    let roles1 :=
      if existing.isEmpty then memberRoles
      else if sink.removeForbidden then memberRoles
      else memberRoles.filter (fun r => !(existing.contains r))
    if sink.addForbidden then (none, roles1)
    else (some role_id, if roles1.contains role_id then roles1 else roles1 ++ [role_id])

-- ==================== The fast-loop tick ====================

/-- Everything outside the store that one run of `process_verified_codes`
consults: the two HTTP services, the configured Hypixel guild id, date
formatting, the current UTC timestamp string, whether
`bot.get_guild(DISCORD_GUILD_ID)` and `get_member` succeed, the role
configuration, and each member's current roles. -/
structure Env where
  mojang : String → MojangResp
  hypixel : String → HypixelResp
  hypixelGuildId : String
  fmtDate : Nat → String
  nowIso : String
  guildFound : Bool
  memberFound : String → Bool
  roleCfg : RoleIds
  roleSink : RoleSink
  memberRoles : String → List Nat

/-- Observable actions of a tick, in order: the Mojang call, the Hypixel
call, a role grant, and each `save_verification_codes` write with the
full store it writes. -/
inductive Event where
  | uuidLookup (code : String)
  | guildCheck (code : String)
  | grant (userId : String) (roleId : Nat)
  | persist (data : Store)
deriving Repr, DecidableEq

/-- The body of the `for code, entry in data.items()` loop of
`process_verified_codes` (bot.py lines 224-360) for one pair, threading the
current store.  Returns the new store, the events this iteration emits,
and this iteration's contribution to `processed_any` (which the Python only
sets on the two paths that reach line 360). -/
def processEntry (env : Env) (data : Store) (code : String) (entry : Entry) :
    Store × List Event × Bool :=
  if entry.verified && !entry.processed then
    if uidFalsy entry.discord_user_id then (data, [], false)
    else
      let uid := entry.discord_user_id.getD ""
      match get_minecraft_uuid (env.mojang entry.minecraft_username) with
      | .err e =>
          let data1 := updateStore data code
            (fun x => { x with processed := true, error := some e })
          (data1, [.uuidLookup code, .persist data1], false)
      | .ok uuid _correct_name =>
          match check_guild_membership env.hypixelGuildId env.fmtDate uuid
              (env.hypixel uuid) with
          | .err e =>
              let data1 := updateStore data code (fun x =>
                { x with processed := true, guild_verified := some false,
                         error := some e })
              (data1, [.uuidLookup code, .guildCheck code, .persist data1], true)
          | .ok g =>
              let upd := fun (x : Entry) =>
                { x with processed := true, guild_verified := some true,
                         verified_at := some env.nowIso,
                         guild_name := some g.guild_name,
                         guild_rank := some g.guild_rank,
                         raw_rank := g.raw_rank,
                         join_date := g.join_date }
              if !env.guildFound then
                let data1 := updateStore data code (fun x =>
                  { upd x with error := some "Discord guild not found" })
                (data1, [.uuidLookup code, .guildCheck code, .persist data1], false)
              else if !(env.memberFound uid) then
                let data1 := updateStore data code (fun x =>
                  { upd x with error := some "Discord member not found in server" })
                (data1, [.uuidLookup code, .guildCheck code, .persist data1], false)
              else
                match (assign_guild_rank_role env.roleCfg env.roleSink
                    (env.memberRoles uid) g.guild_rank).fst with
                | none =>
                    let data1 := updateStore data code (fun x =>
                      { upd x with error := some "Failed to assign guild rank role" })
                    (data1, [.uuidLookup code, .guildCheck code, .persist data1], false)
                | some rid =>
                    let data1 := updateStore data code upd
                    (data1,
                     [.uuidLookup code, .guildCheck code, .grant uid rid,
                      .persist data1], true)
  else (data, [], false)

structure TickResult where
  store : Store
  events : List Event
  processed_any : Bool
deriving Repr, DecidableEq

/-- Fold of `processEntry` over the iterated item list, threading the store. -/
def tickAux (env : Env) : Store → List (String × Entry) → TickResult
  | data, [] => ⟨data, [], false⟩
  | data, (c, e) :: rest =>
      let r := processEntry env data c e
      let t := tickAux env r.1 rest
      ⟨t.store, r.2.1 ++ t.events, r.2.2 || t.processed_any⟩

/-- `process_verified_codes` (bot.py lines 218-366): loads the store once,
iterates over its items mutating and saving as it goes. -/
def process_verified_codes (env : Env) (data : Store) : TickResult :=
  tickAux env data data

/-- Iterated fast-loop ticks on the store the previous tick left behind. -/
def tickN (env : Env) : Nat → Store → Store
  | 0, data => data
  | n + 1, data => tickN env n (process_verified_codes env data).store

-- ==================== Commands ====================

/-- `generate_code` (bot.py lines 42-44): the six random digit draws are
given explicitly; the code is their concatenation.  The store is not
consulted. -/
def generate_code (draws : List (Fin 10)) : String :=
  String.join (draws.map (fun d => toString d.val))

inductive VerifyOutcome where
  | alreadyActive (code : String)
  | created (code : String)
deriving Repr, DecidableEq

/-- The store-relevant part of `verify_command` (bot.py lines 428-478):
refuse when the requester already has an entry that is not processed,
otherwise write a fresh entry under the generated code. -/
def verify_command (draws : List (Fin 10)) (now : Nat) (nowIso : String)
    (user_id minecraft_username : String) (data : Store) :
    Store × VerifyOutcome :=
  match data.find? (fun p => p.2.discord_user_id == some user_id && !p.2.processed) with
  | some p => (data, .alreadyActive p.1)
  | none =>
      let code := generate_code draws
      let e : Entry :=
        { minecraft_username := minecraft_username, timestamp := now,
          verified := false, discord_user_id := some user_id,
          processed := false, created_at := nowIso }
      (storeInsert data code e, .created code)

/-- `cleanup_command` (bot.py lines 838-875): drop every entry whose
timestamp is more than 24 hours (86400 s) before `current_time`. -/
def cleanup_command (current_time : Int) (data : Store) : Store :=
  data.filter (fun p => !((current_time - (p.2.timestamp : Int)) > 86400))

-- ==================== Observations used by the claims ====================

def isLookupFor (code : String) : Event → Bool
  | .uuidLookup c => c == code
  | _ => false

/-- Number of Mojang pipeline entries for `code` in a tick's trace. -/
def countLookup (code : String) (evs : List Event) : Nat :=
  evs.countP (isLookupFor code)

/-- An entry the tick will feed to the pipeline: flagged verified by the
plugin, not yet processed, and with a usable requester id. -/
def eligible (e : Entry) : Bool :=
  e.verified && !e.processed && !(uidFalsy e.discord_user_id)

/-- The store contents of the last `save_verification_codes` call in a
trace, if any: this is what the file holds after the tick. -/
def lastPersist (evs : List Event) : Option Store :=
  evs.foldl (fun acc ev => match ev with | .persist d => some d | _ => acc) none

/-- The file contents after a tick that raced an external write: the bot
loaded `file0`, the plugin then wrote `ext file0` to the file, and the
bot's saves (computed from its stale load) land last. -/
def fileAfterRacedTick (env : Env) (file0 : Store) (ext : Store → Store) : Store :=
  match lastPersist (process_verified_codes env file0).events with
  | some d => d
  | none => ext file0

/-- An entry counts against the per-requester limit when it belongs to the
requester and is not yet processed (the `verify_command` check). -/
def activeFor (uid : String) (p : String × Entry) : Bool :=
  p.2.discord_user_id == some uid && !p.2.processed

/-- How many in-flight entries a requester has. -/
def countActive (uid : String) (data : Store) : Nat :=
  data.countP (activeFor uid)

/-- The ordering property claimed of the tick: before any external lookup
for a code, some save has already persisted the record as claimed
(marked `processed`, the code's only claim marker). -/
def persistClaimBeforeLookup (evs : List Event) (code : String) : Prop :=
  ∀ i : Nat, evs[i]? = some (Event.uuidLookup code) →
    ∃ j, j < i ∧ ∃ d, evs[j]? = some (Event.persist d) ∧
      ∃ e, lookupStore d code = some e ∧ e.processed = true

def isGrant : Event → Bool
  | .grant _ _ => true
  | _ => false

-- ==================== Concrete instances ====================

/-- A record the plugin has flagged as submitted (`verified: true`) and the
bot has not yet processed. -/
def entrySub : Entry :=
  { minecraft_username := "Alice", timestamp := 1000, verified := true,
    discord_user_id := some "R1", processed := false,
    created_at := "2026-01-01T00:00:00+00:00" }

def store0 : Store := [("123456", entrySub)]

/-- Environment whose external HTTP calls all time out. -/
def envTimeout : Env :=
  { mojang := fun _ => .timeout
  , hypixel := fun _ => .timeout
  , hypixelGuildId := "G1"
  , fmtDate := fun _ => ""
  , nowIso := "2026-01-01T00:05:00+00:00"
  , guildFound := true
  , memberFound := fun _ => true
  , roleCfg := ⟨1, 2, 3, 4⟩
  , roleSink := { guildRoles := [1, 2, 3, 4], removeForbidden := false, addForbidden := false }
  , memberRoles := fun _ => [] }

/-- The target Hypixel guild, with `U1` holding raw rank `"Officer"`. -/
def guildA : HGuild :=
  { idStr := "G1", name := "TestGuild"
  , members := [{ uuid := "U1", rank := some "Officer", joined := 0 }]
  , ranks := [] }

/-- Environment where every pipeline step succeeds: Alice resolves to `U1`,
`U1` is an Officer of the target guild, and role assignment works. -/
def envOk : Env :=
  { envTimeout with
    mojang := fun _ => .http ⟨200, "U1", "Alice"⟩
  , hypixel := fun _ => .http 200 true (some guildA) }

/-- Like `envOk` but `member.add_roles` raises `discord.Forbidden`. -/
def envGrantFail : Env :=
  { envOk with
    roleSink := { guildRoles := [1, 2, 3, 4], removeForbidden := false, addForbidden := true } }

def entryPend : Entry :=
  { minecraft_username := "Bob", timestamp := 1200, verified := false,
    discord_user_id := some "R2", processed := false,
    created_at := "2026-01-01T00:03:00+00:00" }

def fileC2 : Store := [("123456", entrySub), ("222222", entryPend)]

/-- The plugin's concurrent write: it flips record `222222` to submitted. -/
def extFlip : Store → Store :=
  fun d => updateStore d "222222" (fun e => { e with verified := true })

def entryR2live : Entry :=
  { minecraft_username := "Bob", timestamp := 500, verified := true,
    discord_user_id := some "R2", processed := false,
    created_at := "2026-01-01T00:00:00+00:00" }

def dataC5 : Store := [("123456", entryR2live)]

/-- Like `envTimeout` but Mojang answers 404 (account not found). -/
def env404 : Env :=
  { envTimeout with mojang := fun _ => .http ⟨404, "", ""⟩ }

/-- A record the plugin flagged as submitted but that carries no
`discord_user_id`. -/
def entryNoUid : Entry :=
  { minecraft_username := "Ghost", timestamp := 1500, verified := true,
    discord_user_id := none, processed := false,
    created_at := "2026-01-01T00:01:00+00:00" }

def storeNoUid : Store := [("777777", entryNoUid)]

-- ==================== Claim theorems ====================

/-- Claim C1, counterexample: on a store holding one Submitted record
`"123456"`, the tick's very first observable action is the external Mojang
lookup (trace index 0), so no save persisting the claimed record precedes
any external call — the claimed claim-then-call ordering is false. -/
theorem C1_counterexample :
    eligible entrySub = true ∧
    ¬ persistClaimBeforeLookup (process_verified_codes envTimeout store0).events "123456" := by
  refine ⟨by decide, fun h => ?_⟩
  obtain ⟨j, hj, _⟩ := h 0 (by decide)
  exact absurd hj (Nat.not_lt_zero j)

/-- Claim C2 at its failing input: the tick loads the store, the plugin
then flips record `222222` to submitted in the file, and the tick's save —
computed from the stale load, with no reload before writing — lands last
and overwrites the plugin's flag back to unsubmitted. -/
theorem C2_code_bug :
    (lookupStore (extFlip fileC2) "222222").map Entry.verified = some true ∧
    (lookupStore (fileAfterRacedTick envTimeout fileC2 extFlip) "222222").map Entry.verified
      = some false := by decide

/-- Claim C3 at its failing input: a record created at timestamp 1000 and
polled at 2860 (31 minutes old, past the promised 30-minute window) is
still fed to the lookup pipeline, and the only age-based sweep in the code,
`cleanup_command`, removes nothing until 24 hours; no transition to an
Expired state exists anywhere. -/
theorem C3_code_bug :
    ((2860 : Int) - (1000 : Int) > 1800) ∧
    countLookup "123456" (process_verified_codes envTimeout store0).events = 1 ∧
    cleanup_command 2860 store0 = store0 := by decide

/-- Claim C4 at its failing input: identity resolution and membership
lookup succeed, then `add_roles` raises Forbidden, yet the record ends with
`guild_verified = true` and `verified_at` set — recorded as successfully
verified (both `/status` and `/list_codes` classify on `guild_verified`) —
with only a generic error string added, and no role was granted. -/
theorem C4_code_bug :
    lookupStore (process_verified_codes envGrantFail store0).store "123456" =
      some { entrySub with
             processed := true
             guild_verified := some true
             verified_at := some "2026-01-01T00:05:00+00:00"
             guild_name := some "TestGuild"
             guild_rank := some "Guild Officer"
             raw_rank := some "Officer"
             join_date := none
             error := some "Failed to assign guild rank role" } ∧
    (process_verified_codes envGrantFail store0).events.countP isGrant = 0 := by decide

/-- Claim C5 at its failing input: requester R2 has a live (unprocessed)
record under code `"123456"`; requester R1 runs `/verify` and the random
draws produce `"123456"` again; `generate_code` never consults the store,
and `data[code] = ...` overwrites R2's live record with R1's new one. -/
theorem C5_code_bug :
    entryR2live.processed = false ∧
    (verify_command [1, 2, 3, 4, 5, 6] 2000 "2026-01-01T00:33:20+00:00" "R1" "Steve" dataC5).snd
      = VerifyOutcome.created "123456" ∧
    ((lookupStore (verify_command [1, 2, 3, 4, 5, 6] 2000 "2026-01-01T00:33:20+00:00" "R1"
        "Steve" dataC5).fst "123456").map Entry.discord_user_id) = some (some "R1") ∧
    (verify_command [1, 2, 3, 4, 5, 6] 2000 "2026-01-01T00:33:20+00:00" "R1" "Steve"
        dataC5).fst.length = 1 := by
  decide

/-- Claim C7, counterexample: in Scenario A the membership lookup finds
`U1` in the target guild with raw rank `"Officer"`, but the lookup
translates it and the record stores `guild_rank = "Guild Officer"`, not
`"Officer"` — the stored membership rank differs from the claim's value. -/
theorem C7_counterexample :
    check_guild_membership "G1" envOk.fmtDate "U1" (envOk.hypixel "U1") =
      GuildResult.ok { guild_name := "TestGuild", guild_rank := "Guild Officer",
                       join_date := none, raw_rank := some "Officer" } ∧
    (lookupStore (process_verified_codes envOk store0).store "123456").map Entry.guild_rank
      = some (some "Guild Officer") ∧
    some (some "Guild Officer") ≠ some (some ("Officer" : String)) := by decide

/-- Claim C7 as amended: in Scenario A (record `"123456"` submitted for
requester R1, name Alice resolving to `U1`, membership lookup reporting the
target guild with raw rank `"Officer"`), processing ends with the record
verified (`guild_verified = true`, `verified_at` set), the Officer role
granted, and the stored rank equal to `"Guild Officer"` — the role name the
lookup maps raw rank `"Officer"` to — with `raw_rank` keeping `"Officer"`. -/
theorem C7_scenarioA :
    lookupStore (process_verified_codes envOk store0).store "123456" =
      some { entrySub with
             processed := true
             guild_verified := some true
             verified_at := some "2026-01-01T00:05:00+00:00"
             guild_name := some "TestGuild"
             guild_rank := some "Guild Officer"
             raw_rank := some "Officer" } ∧
    Event.grant "R1" 2 ∈ (process_verified_codes envOk store0).events := by decide


-- ==================== Store and tick lemmas ====================

theorem countP_map_le {α : Type} (p : α → Bool) (g : α → α)
    (h : ∀ x, p (g x) = true → p x = true) (l : List α) :
    (l.map g).countP p ≤ l.countP p := by
  induction l with
  | nil => simp
  | cons a t ih =>
      rw [List.map_cons, List.countP_cons, List.countP_cons]
      apply Nat.add_le_add ih
      by_cases hga : p (g a)
      · rw [if_pos hga, if_pos (h a hga)]
      · rw [if_neg hga]
        exact Nat.zero_le _

theorem countP_filter_le {α : Type} (p q : α → Bool) (l : List α) :
    (l.filter q).countP p ≤ l.countP p := by
  induction l with
  | nil => simp
  | cons a t ih =>
      by_cases hq : q a
      · rw [List.filter_cons_of_pos hq, List.countP_cons, List.countP_cons]
        omega
      · rw [List.filter_cons_of_neg hq, List.countP_cons]
        omega

theorem countActive_updateStore_le (uid : String) (data : Store) (code : String)
    (f : Entry → Entry) (hf : ∀ x, (f x).processed = true) :
    countActive uid (updateStore data code f) ≤ countActive uid data := by
  unfold countActive updateStore
  apply countP_map_le
  intro x hx
  by_cases hc : x.1 == code
  · exfalso
    simp only [hc, if_true, activeFor, hf x.2] at hx
    simp at hx
  · simpa [hc] using hx

theorem processEntry_countActive_le (uid : String) (env : Env) (d : Store)
    (c : String) (e : Entry) :
    countActive uid (processEntry env d c e).1 ≤ countActive uid d := by
  unfold processEntry
  repeat' (first | split | dsimp only)
  all_goals
    first
      | exact Nat.le_refl _
      | exact countActive_updateStore_le uid d c _ (fun x => rfl)

theorem tickAux_countActive_le (uid : String) (env : Env) :
    ∀ (l : List (String × Entry)) (d : Store),
      countActive uid (tickAux env d l).store ≤ countActive uid d := by
  intro l
  induction l with
  | nil => intro d; exact Nat.le_refl _
  | cons a t ih =>
      intro d
      exact Nat.le_trans (ih _) (processEntry_countActive_le uid env d a.1 a.2)

theorem map_id_of_no_key (code : String) (e' : Entry) :
    ∀ (data : Store), (∀ q ∈ data, (q.1 == code) = false) →
      data.map (fun p => if p.1 == code then (p.1, e') else p) = data := by
  intro data
  induction data with
  | nil => intro _; rfl
  | cons a t ih =>
      intro h
      have ha := h a (List.mem_cons_self a t)
      rw [List.map_cons, if_neg (by simp [ha]),
          ih (fun q hq => h q (List.mem_cons_of_mem a hq))]

theorem countP_overwrite_le_one (user_id code : String) (e' : Entry) :
    ∀ (data : Store), nodupKeys data →
      (∀ p ∈ data, activeFor user_id p = false) →
      (data.map (fun p => if p.1 == code then (p.1, e') else p)).countP
        (activeFor user_id) ≤ 1 := by
  intro data
  induction data with
  | nil => intro _ _; simp
  | cons a t ih =>
      intro hkeys hnone
      have hk : a.1 ∉ t.map Prod.fst ∧ nodupKeys t := by
        have h := hkeys
        unfold nodupKeys at h ⊢
        rw [List.map_cons, List.nodup_cons] at h
        exact h
      rw [List.map_cons, List.countP_cons]
      by_cases hc : (a.1 == code) = true
      · have hc' : a.1 = code := by simpa using hc
        have htail : t.map (fun p => if p.1 == code then (p.1, e') else p) = t := by
          apply map_id_of_no_key
          intro q hq
          by_contra hqc
          have hqc' : q.1 = code := by simpa using hqc
          have hmm : q.1 ∈ t.map Prod.fst := List.mem_map_of_mem Prod.fst hq
          rw [hqc', ← hc'] at hmm
          exact hk.1 hmm
        have h0 : t.countP (activeFor user_id) = 0 :=
          List.countP_eq_zero.mpr (fun q hq => by
            simp [hnone q (List.mem_cons_of_mem a hq)])
        rw [if_pos hc, htail, h0]
        by_cases h2 : activeFor user_id (a.1, e') = true <;> simp [h2]
      · rw [if_neg hc]
        have ha : activeFor user_id a = false := hnone a (List.mem_cons_self a t)
        rw [ha]
        have := ih hk.2 (fun q hq => hnone q (List.mem_cons_of_mem a hq))
        simp only [Bool.false_eq_true, if_false]
        omega

theorem countActive_storeInsert_self (user_id code : String) (e' : Entry)
    (he' : activeFor user_id (code, e') = true)
    (data : Store) (hkeys : nodupKeys data)
    (hnone : ∀ p ∈ data, activeFor user_id p = false) :
    countActive user_id (storeInsert data code e') ≤ 1 := by
  unfold countActive storeInsert
  split
  · exact countP_overwrite_le_one user_id code e' data hkeys hnone
  · rw [List.countP_append]
    have h0 : data.countP (activeFor user_id) = 0 :=
      List.countP_eq_zero.mpr (fun q hq => by simp [hnone q hq])
    rw [h0]
    simp [List.countP_cons, he']

theorem countActive_storeInsert_other (u code : String) (e' : Entry)
    (hne : activeFor u (code, e') = false) (data : Store) :
    countActive u (storeInsert data code e') ≤ countActive u data := by
  unfold countActive storeInsert
  split
  · apply countP_map_le
    intro x hx
    by_cases hc : (x.1 == code) = true
    · exfalso
      have hx1 : x.1 = code := by simpa using hc
      rw [if_pos hc, hx1] at hx
      rw [hx] at hne
      exact Bool.false_ne_true hne.symm
    · rw [if_neg hc] at hx
      exact hx
  · rw [List.countP_append]
    simp [List.countP_cons, hne]

theorem find?_updateStore_ne (d : Store) (code c' : String) (f : Entry → Entry)
    (h : code ≠ c') :
    (updateStore d c' f).find? (fun p => p.1 == code) = d.find? (fun p => p.1 == code) := by
  induction d with
  | nil => rfl
  | cons a t ih =>
      unfold updateStore at ih ⊢
      rw [List.map_cons]
      by_cases hc : (a.1 == c') = true
      · have ha1 : a.1 = c' := by simpa using hc
        have hk : (a.1 == code) = false := by
          rw [beq_eq_false_iff_ne, ha1]
          exact fun hh => h hh.symm
        rw [if_pos hc,
            @List.find?_cons_of_neg _ (fun p => p.1 == code) (a.1, f a.2) _
              (by simp [hk]),
            @List.find?_cons_of_neg _ (fun p => p.1 == code) a _ (by simp [hk])]
        exact ih
      · rw [if_neg hc]
        by_cases hk : (a.1 == code) = true
        · rw [@List.find?_cons_of_pos _ (fun p => p.1 == code) a _ hk,
              @List.find?_cons_of_pos _ (fun p => p.1 == code) a _ hk]
        · rw [@List.find?_cons_of_neg _ (fun p => p.1 == code) a _ hk,
              @List.find?_cons_of_neg _ (fun p => p.1 == code) a _ hk]
          exact ih

theorem lookupStore_updateStore_ne (d : Store) (code c' : String) (f : Entry → Entry)
    (h : code ≠ c') :
    lookupStore (updateStore d c' f) code = lookupStore d code := by
  unfold lookupStore
  rw [find?_updateStore_ne d code c' f h]

theorem processEntry_lookupStore_ne (env : Env) (d : Store) (c' : String) (e' : Entry)
    (code : String) (h : code ≠ c') :
    lookupStore (processEntry env d c' e').1 code = lookupStore d code := by
  unfold processEntry
  repeat' (first | split | dsimp only)
  all_goals first
    | rfl
    | exact lookupStore_updateStore_ne d code c' _ h

theorem processEntry_noop (env : Env) (d : Store) (c : String) (e : Entry)
    (h : eligible e = false) : processEntry env d c e = (d, [], false) := by
  cases hv : e.verified <;> cases hp : e.processed <;>
    cases hu : uidFalsy e.discord_user_id <;>
    simp_all [processEntry, eligible]

theorem updateStore_keys (d : Store) (code : String) (f : Entry → Entry) :
    (updateStore d code f).map Prod.fst = d.map Prod.fst := by
  induction d with
  | nil => rfl
  | cons a t ih =>
      unfold updateStore at ih ⊢
      rw [List.map_cons, List.map_cons, List.map_cons]
      by_cases hc : (a.1 == code) = true
      · rw [if_pos hc]
        exact congrArg _ ih
      · rw [if_neg hc]
        exact congrArg _ ih

theorem processEntry_keys (env : Env) (d : Store) (c : String) (e : Entry) :
    (processEntry env d c e).1.map Prod.fst = d.map Prod.fst := by
  unfold processEntry
  repeat' (first | split | dsimp only)
  all_goals first
    | rfl
    | exact updateStore_keys d c _

theorem tickAux_keys (env : Env) :
    ∀ (l : List (String × Entry)) (d : Store),
      (tickAux env d l).store.map Prod.fst = d.map Prod.fst := by
  intro l
  induction l with
  | nil => intro d; rfl
  | cons a t ih =>
      intro d
      obtain ⟨c1, e1⟩ := a
      exact (ih _).trans (processEntry_keys env d c1 e1)

theorem tickAux_lookupStore_skip (env : Env) (code : String) :
    ∀ (l : List (String × Entry)) (d : Store),
      (∀ p ∈ l, p.1 = code → eligible p.2 = false) →
      lookupStore (tickAux env d l).store code = lookupStore d code := by
  intro l
  induction l with
  | nil => intro d _; rfl
  | cons a t ih =>
      intro d hskip
      obtain ⟨c1, e1⟩ := a
      show lookupStore (tickAux env (processEntry env d c1 e1).1 t).store code = _
      rw [ih _ (fun p hp => hskip p (List.mem_cons_of_mem _ hp))]
      by_cases hk : c1 = code
      · rw [processEntry_noop env d c1 e1
          (hskip (c1, e1) (List.mem_cons_self _ t) hk)]
      · exact processEntry_lookupStore_ne env d c1 e1 code (fun hh => hk hh.symm)

theorem lookupStore_of_mem :
    ∀ (data : Store), nodupKeys data → ∀ (code : String) (e : Entry),
      (code, e) ∈ data → lookupStore data code = some e := by
  intro data
  induction data with
  | nil => intro _ code e h; cases h
  | cons a t ih =>
      intro hkeys code e hmem
      have hk : a.1 ∉ t.map Prod.fst ∧ nodupKeys t := by
        have h := hkeys
        unfold nodupKeys at h ⊢
        rw [List.map_cons, List.nodup_cons] at h
        exact h
      rcases List.mem_cons.mp hmem with h | h
      · rw [← h]
        unfold lookupStore
        rw [@List.find?_cons_of_pos _ (fun p => p.1 == code) (code, e) _ (by simp)]
        rfl
      · have hcode : code ∈ t.map Prod.fst :=
          List.mem_map.mpr ⟨(code, e), h, rfl⟩
        have ha : a.1 ≠ code := fun hh => hk.1 (hh ▸ hcode)
        unfold lookupStore
        rw [@List.find?_cons_of_neg _ (fun p => p.1 == code) a _ (by simp [ha])]
        exact ih hk.2 code e h

theorem mem_key_unique :
    ∀ (data : Store), nodupKeys data → ∀ (code : String) (e : Entry),
      (code, e) ∈ data → ∀ p ∈ data, p.1 = code → p = (code, e) := by
  intro data
  induction data with
  | nil => intro _ code e h; cases h
  | cons a t ih =>
      intro hkeys code e hmem p hp hpk
      have hk : a.1 ∉ t.map Prod.fst ∧ nodupKeys t := by
        have h := hkeys
        unfold nodupKeys at h ⊢
        rw [List.map_cons, List.nodup_cons] at h
        exact h
      rcases List.mem_cons.mp hmem with h | h
      · rcases List.mem_cons.mp hp with h2 | h2
        · rw [h2, ← h]
        · exfalso
          have : p.1 ∈ t.map Prod.fst := List.mem_map.mpr ⟨p, h2, rfl⟩
          rw [hpk] at this
          rw [← h] at hk
          exact hk.1 this
      · rcases List.mem_cons.mp hp with h2 | h2
        · exfalso
          have : code ∈ t.map Prod.fst := List.mem_map.mpr ⟨(code, e), h, rfl⟩
          rw [← hpk, h2] at this
          exact hk.1 this
        · exact ih hk.2 code e h p h2 hpk

theorem mem_of_lookupStore (data : Store) (code : String) (e : Entry)
    (h : lookupStore data code = some e) : (code, e) ∈ data := by
  unfold lookupStore at h
  obtain ⟨p, hfind, hsnd⟩ := Option.map_eq_some'.mp h
  have hp1 : p.1 = code := by simpa using List.find?_some hfind
  have hpmem := List.mem_of_find?_eq_some hfind
  have hpe : p = (code, e) := by
    rw [← hp1, ← hsnd]
  rw [← hpe]
  exact hpmem

theorem processEntry_events_count (env : Env) (d : Store) (c : String) (e : Entry)
    (code : String) :
    countLookup code (processEntry env d c e).2.1 =
      if ((c == code) && eligible e) = true then 1 else 0 := by
  by_cases hel : eligible e = true
  · have hel' := hel
    simp only [eligible, Bool.and_eq_true] at hel'
    obtain ⟨⟨hv, hp⟩, hu⟩ := hel'
    rw [show ((c == code) && eligible e) = (c == code) from by rw [hel, Bool.and_true]]
    unfold processEntry
    rw [if_pos (by simp [hv, hp]), if_neg (by simp_all)]
    repeat' (first | split | dsimp only)
    all_goals simp_all [countLookup, isLookupFor, List.countP_cons]
  · rw [Bool.not_eq_true] at hel
    rw [processEntry_noop env d c e hel]
    simp [countLookup, hel]

theorem tickAux_lookupCount (env : Env) (code : String) :
    ∀ (l : List (String × Entry)) (d : Store),
      countLookup code (tickAux env d l).events =
        l.countP (fun p => p.1 == code && eligible p.2) := by
  intro l
  induction l with
  | nil => intro d; rfl
  | cons a t ih =>
      intro d
      obtain ⟨c1, e1⟩ := a
      show countLookup code
        ((processEntry env d c1 e1).2.1 ++ (tickAux env (processEntry env d c1 e1).1 t).events)
          = _
      unfold countLookup at ih ⊢
      rw [List.countP_append, List.countP_cons]
      have h9 := processEntry_events_count env d c1 e1 code
      unfold countLookup at h9
      rw [h9, ih]
      by_cases hb : ((c1 == code) && eligible e1) = true
      · simp [hb]
        try omega
      · rw [Bool.not_eq_true] at hb
        simp [hb]
        try omega

theorem countP_key_one (code : String) (e : Entry) :
    ∀ (data : Store), nodupKeys data → (code, e) ∈ data → eligible e = true →
      data.countP (fun p => p.1 == code && eligible p.2) = 1 := by
  intro data
  induction data with
  | nil => intro _ h; cases h
  | cons a t ih =>
      intro hkeys hmem hel
      have hk : a.1 ∉ t.map Prod.fst ∧ nodupKeys t := by
        have h := hkeys
        unfold nodupKeys at h ⊢
        rw [List.map_cons, List.nodup_cons] at h
        exact h
      rw [List.countP_cons]
      rcases List.mem_cons.mp hmem with h | h
      · have h0 : t.countP (fun p => p.1 == code && eligible p.2) = 0 := by
          apply List.countP_eq_zero.mpr
          intro q hq
          have hq1 : q.1 ≠ code := by
            intro hh
            apply hk.1
            rw [← h]
            rw [← hh]
            exact List.mem_map.mpr ⟨q, hq, rfl⟩
          simp [hq1]
        rw [h0, ← h]
        simp [hel]
      · have hcode : code ∈ t.map Prod.fst := List.mem_map.mpr ⟨(code, e), h, rfl⟩
        have ha : a.1 ≠ code := fun hh => hk.1 (hh ▸ hcode)
        rw [ih hk.2 h hel]
        simp [ha]

theorem updateStore_processedAt (d : Store) (c : String) (f : Entry → Entry) (k : String)
    (hf : ∀ x, (f x).processed = true)
    (hd : ∀ q ∈ d, q.1 = k → q.2.processed = true) :
    ∀ q ∈ updateStore d c f, q.1 = k → q.2.processed = true := by
  intro q hq hqk
  unfold updateStore at hq
  obtain ⟨p, hp, hgp⟩ := List.mem_map.mp hq
  by_cases hc : (p.1 == c) = true
  · rw [if_pos hc] at hgp
    rw [← hgp]
    exact hf p.2
  · rw [if_neg hc] at hgp
    rw [← hgp] at hqk ⊢
    exact hd p hp hqk

theorem updateStore_processedAt_self (d : Store) (c : String) (f : Entry → Entry)
    (hf : ∀ x, (f x).processed = true) :
    ∀ q ∈ updateStore d c f, q.1 = c → q.2.processed = true := by
  intro q hq hqk
  unfold updateStore at hq
  obtain ⟨p, hp, hgp⟩ := List.mem_map.mp hq
  by_cases hc : (p.1 == c) = true
  · rw [if_pos hc] at hgp
    rw [← hgp]
    exact hf p.2
  · exfalso
    rw [if_neg hc] at hgp
    rw [← hgp] at hqk
    exact (by simpa using hc : p.1 ≠ c) hqk

theorem processEntry_processedAt (env : Env) (d : Store) (c' : String) (e' : Entry)
    (k : String)
    (hd : ∀ q ∈ d, q.1 = k → q.2.processed = true) :
    ∀ q ∈ (processEntry env d c' e').1, q.1 = k → q.2.processed = true := by
  unfold processEntry
  repeat' (first | split | dsimp only)
  all_goals first
    | exact hd
    | exact updateStore_processedAt d c' _ k (fun x => rfl) hd

theorem processEntry_processedAt_self (env : Env) (d : Store) (c : String) (e : Entry)
    (hel : eligible e = true) :
    ∀ q ∈ (processEntry env d c e).1, q.1 = c → q.2.processed = true := by
  have hel' := hel
  simp only [eligible, Bool.and_eq_true] at hel'
  obtain ⟨⟨hv, hp⟩, hu⟩ := hel'
  unfold processEntry
  rw [if_pos (by simp [hv, hp]), if_neg (by simp_all)]
  repeat' (first | split | dsimp only)
  all_goals exact updateStore_processedAt_self d c _ (fun x => rfl)

theorem tickAux_processedAt_pres (env : Env) (k : String) :
    ∀ (l : List (String × Entry)) (d : Store),
      (∀ q ∈ d, q.1 = k → q.2.processed = true) →
      ∀ q ∈ (tickAux env d l).store, q.1 = k → q.2.processed = true := by
  intro l
  induction l with
  | nil => intro d hd; exact hd
  | cons a t ih =>
      intro d hd
      obtain ⟨c1, e1⟩ := a
      exact ih _ (processEntry_processedAt env d c1 e1 k hd)

theorem tickAux_processedAt (env : Env) (code : String) (e : Entry)
    (hel : eligible e = true) :
    ∀ (l : List (String × Entry)) (d : Store),
      (code, e) ∈ l →
      ∀ q ∈ (tickAux env d l).store, q.1 = code → q.2.processed = true := by
  intro l
  induction l with
  | nil => intro d h; cases h
  | cons a t ih =>
      intro d hmem
      rcases List.mem_cons.mp hmem with h | h
      · rw [← h]
        show ∀ q ∈ (tickAux env (processEntry env d code e).1 t).store, _
        exact tickAux_processedAt_pres env code t _
          (processEntry_processedAt_self env d code e hel)
      · obtain ⟨c1, e1⟩ := a
        exact ih _ h

-- ==================== Remaining claim theorems ====================

/-- Claim C1 as amended: although the tick claims nothing before calling
out, running the fast-loop tick twice on a store holding a Submitted record
without an intervening external change performs exactly one pipeline
execution for that record: the first tick issues exactly one identity
lookup for its code and persists `processed = true` before finishing, so
the second tick, loading the store the first one left, issues none. -/
theorem C1_idempotent (env : Env) (data : Store) (code : String) (e : Entry)
    (hkeys : nodupKeys data) (hmem : (code, e) ∈ data) (hel : eligible e = true) :
    countLookup code (process_verified_codes env data).events = 1 ∧
    countLookup code
      (process_verified_codes env (process_verified_codes env data).store).events = 0 := by
  constructor
  · rw [process_verified_codes, tickAux_lookupCount env code data data]
    exact countP_key_one code e data hkeys hmem hel
  · rw [process_verified_codes, tickAux_lookupCount env code _ _]
    apply List.countP_eq_zero.mpr
    intro q hq
    by_cases hqk : q.1 = code
    · have hproc : q.2.processed = true :=
        tickAux_processedAt env code e hel data data hmem q hq hqk
      simp [eligible, hproc]
    · simp [hqk]

/-- Claim C6: if every requester has at most one in-flight (unprocessed)
record, this stays true after `/verify` (which refuses to create a record
for a requester who already has an unfinished one and returns the store
unchanged), after a fast-loop tick (which only sets `processed`), and
after `/cleanup` (which only removes records). -/
theorem C6_one_inflight (draws : List (Fin 10)) (now : Nat) (nowIso : String)
    (user_id name : String) (env : Env) (t : Int) (data : Store)
    (hkeys : nodupKeys data)
    (hinv : ∀ u, countActive u data ≤ 1) :
    (∀ u, countActive u (verify_command draws now nowIso user_id name data).fst ≤ 1) ∧
    (∀ u, countActive u (process_verified_codes env data).store ≤ 1) ∧
    (∀ u, countActive u (cleanup_command t data) ≤ 1) ∧
    (data.any (activeFor user_id) = true →
      (verify_command draws now nowIso user_id name data).fst = data) := by
  refine ⟨?_, ?_, ?_, ?_⟩
  · intro u
    unfold verify_command
    cases hfind : data.find?
        (fun p => p.2.discord_user_id == some user_id && !p.2.processed) with
    | some p => exact hinv u
    | none =>
        have hnone : ∀ p ∈ data, activeFor user_id p = false := by
          rw [List.find?_eq_none] at hfind
          intro p hp
          have h := hfind p hp
          simpa [activeFor] using h
        by_cases hu : u = user_id
        · subst hu
          exact countActive_storeInsert_self u (generate_code draws) _
            (by simp [activeFor]) data hkeys hnone
        · refine le_trans (countActive_storeInsert_other u (generate_code draws) _ ?_ data)
            (hinv u)
          simp [activeFor]
          exact fun h => hu h.symm
  · intro u
    exact le_trans (tickAux_countActive_le u env data data) (hinv u)
  · intro u
    exact le_trans (countP_filter_le _ _ data) (hinv u)
  · intro hany
    obtain ⟨p, hp, hpred⟩ := List.any_eq_true.mp hany
    unfold verify_command
    cases hfind : data.find?
        (fun p => p.2.discord_user_id == some user_id && !p.2.processed) with
    | some q => rfl
    | none =>
        rw [List.find?_eq_none] at hfind
        exact absurd hpred (hfind p hp)

/-- Claim C8: for any Submitted record, when identity resolution times out
the record ends processed with errorDetail `"Mojang API timeout"`, when the
account does not exist (HTTP 404) it ends processed with errorDetail
`"Minecraft account not found"`, and the two stored details differ. -/
theorem C8_timeout_vs_notfound (env env' : Env) (c : String) (e : Entry) (i n : String)
    (hv : e.verified = true) (hp : e.processed = false)
    (hu : uidFalsy e.discord_user_id = false)
    (ht : env.mojang e.minecraft_username = MojangResp.timeout)
    (hn : env'.mojang e.minecraft_username = MojangResp.http ⟨404, i, n⟩) :
    lookupStore (process_verified_codes env [(c, e)]).store c =
      some { e with processed := true, error := some "Mojang API timeout" } ∧
    lookupStore (process_verified_codes env' [(c, e)]).store c =
      some { e with processed := true, error := some "Minecraft account not found" } ∧
    ("Mojang API timeout" : String) ≠ "Minecraft account not found" := by
  refine ⟨?_, ?_, by decide⟩
  · simp [process_verified_codes, tickAux, processEntry, hv, hp, hu, ht,
      get_minecraft_uuid, updateStore, lookupStore]
  · simp [process_verified_codes, tickAux, processEntry, hv, hp, hu, hn,
      get_minecraft_uuid, updateStore, lookupStore]

/-- Claim C9: whenever `assign_guild_rank_role` succeeds (returns the role
mapped to the requested rank) and the removal step does not fail, the
member ends up holding that mapped role and none of the other configured
guild-rank roles (the member's roles all exist in the guild, and Discord
role ids are nonzero). -/
theorem C9_exactly_one_rank_role (c : RoleIds) (sink : RoleSink) (roles : List Nat)
    (rank : String) (rid : Nat)
    (hsub : ∀ r ∈ roles, r ∈ sink.guildRoles)
    (h0 : 0 ∉ sink.guildRoles)
    (hrem : sink.removeForbidden = false)
    (hsucc : (assign_guild_rank_role c sink roles rank).fst = some rid) :
    rid = get_discord_role_for_guild_rank c rank ∧
    rid ∈ (assign_guild_rank_role c sink roles rank).snd ∧
    ∀ r ∈ c.values, r ≠ rid → r ∉ (assign_guild_rank_role c sink roles rank).snd := by
  unfold assign_guild_rank_role at hsucc ⊢
  rw [hrem] at hsucc ⊢
  by_cases hz : (get_discord_role_for_guild_rank c rank == 0) = true
  · rw [if_pos hz] at hsucc
    exact absurd hsucc (by simp)
  · rw [if_neg hz] at hsucc ⊢
    by_cases hcont :
        (sink.guildRoles.contains (get_discord_role_for_guild_rank c rank)) = true
    · rw [if_neg (by rw [hcont]; decide)] at hsucc ⊢
      by_cases haf : sink.addForbidden = true
      · rw [if_pos haf] at hsucc
        exact absurd hsucc (by simp)
      · rw [if_neg haf] at hsucc ⊢
        dsimp only at hsucc ⊢
        set E := c.values.filter
          (fun r => r != 0 && sink.guildRoles.contains r && roles.contains r) with hE
        set R1 := if E.isEmpty = true then roles
          else if false = true then roles
          else roles.filter (fun r => !(E.contains r)) with hR1
        have hrid : rid = get_discord_role_for_guild_rank c rank := by
          simpa using hsucc.symm
        have key : ∀ r, r ∈ c.values → r ∈ roles → r ∈ E := by
          intro r hrv hrr
          rw [hE, List.mem_filter]
          refine ⟨hrv, ?_⟩
          have h1 : r ∈ sink.guildRoles := hsub r hrr
          have h2 : r ≠ 0 := fun h => h0 (h ▸ h1)
          simp [List.contains, List.elem_iff, h1, hrr, h2]
        have hnotin1 : ∀ r, r ∈ c.values → r ∉ R1 := by
          intro r hrv hrmem
          rw [hR1] at hrmem
          by_cases hemp : E.isEmpty = true
          · rw [if_pos hemp] at hrmem
            have hin := key r hrv hrmem
            rw [List.isEmpty_iff] at hemp
            rw [hemp] at hin
            exact absurd hin (List.not_mem_nil r)
          · rw [if_neg hemp, if_neg (by decide)] at hrmem
            rw [List.mem_filter] at hrmem
            obtain ⟨hrr, hrb⟩ := hrmem
            have hin : E.contains r = true := by
              simp only [List.contains]
              exact List.elem_iff.mpr (key r hrv hrr)
            rw [hin] at hrb
            exact absurd hrb (by decide)
        refine ⟨hrid, ?_, ?_⟩
        · rw [hrid]
          by_cases hc1 : R1.contains (get_discord_role_for_guild_rank c rank) = true
          · rw [if_pos hc1]
            simp only [List.contains] at hc1
            exact List.elem_iff.mp hc1
          · rw [if_neg hc1]
            exact List.mem_append.mpr (Or.inr (List.mem_singleton.mpr rfl))
        · intro r hrv hrne
          by_cases hc1 : R1.contains (get_discord_role_for_guild_rank c rank) = true
          · rw [if_pos hc1]
            exact hnotin1 r hrv
          · rw [if_neg hc1]
            intro hmem
            rcases List.mem_append.mp hmem with hm | hm
            · exact hnotin1 r hrv hm
            · rw [List.mem_singleton] at hm
              rw [← hrid] at hm
              exact hrne hm
    · rw [Bool.not_eq_true] at hcont
      rw [if_pos (show
          (!(sink.guildRoles.contains (get_discord_role_for_guild_rank c rank))) = true by
        rw [hcont]; decide)] at hsucc
      exact absurd hsucc (by simp)

/-- Claim C10: a record flagged `verified: true` whose `discord_user_id`
is missing is skipped by every tick: after any number of ticks it is still
stored completely unchanged (in particular never marked processed and
never given an error), and the next tick still issues no lookup for it. -/
theorem C10_missing_requester_skipped (env : Env) (n : Nat) (data : Store)
    (code : String) (e : Entry)
    (hkeys : nodupKeys data) (hmem : (code, e) ∈ data)
    (hv : e.verified = true) (hu : uidFalsy e.discord_user_id = true) :
    lookupStore (tickN env n data) code = some e ∧
    countLookup code (process_verified_codes env (tickN env n data)).events = 0 := by
  induction n generalizing data with
  | zero =>
      simp only [tickN]
      constructor
      · exact lookupStore_of_mem data hkeys code e hmem
      · rw [process_verified_codes, tickAux_lookupCount env code data data]
        apply List.countP_eq_zero.mpr
        intro q hq
        by_cases hqk : q.1 = code
        · have hq' : q = (code, e) := mem_key_unique data hkeys code e hmem q hq hqk
          rw [hq']
          simp [eligible, hu]
        · simp [hqk]
  | succ n ih =>
      show lookupStore (tickN env n (process_verified_codes env data).store) code = some e ∧ _
      have hskip : ∀ p ∈ data, p.1 = code → eligible p.2 = false := by
        intro p hp hpk
        have hp' : p = (code, e) := mem_key_unique data hkeys code e hmem p hp hpk
        rw [hp']
        simp [eligible, hu]
      have hkeys1 : nodupKeys (process_verified_codes env data).store := by
        unfold nodupKeys
        rw [process_verified_codes, tickAux_keys env data data]
        exact hkeys
      have hmem1 : (code, e) ∈ (process_verified_codes env data).store := by
        apply mem_of_lookupStore
        rw [process_verified_codes, tickAux_lookupStore_skip env code data data hskip]
        exact lookupStore_of_mem data hkeys code e hmem
      exact ih _ hkeys1 hmem1


-- ==================== Witnesses ====================

theorem C1_idempotent_witness :
    nodupKeys store0 ∧ ("123456", entrySub) ∈ store0 ∧ eligible entrySub = true ∧
    countLookup "123456" (process_verified_codes envTimeout store0).events = 1 ∧
    countLookup "123456"
      (process_verified_codes envTimeout
        (process_verified_codes envTimeout store0).store).events = 0 := by
  refine ⟨by decide, by decide, by decide, ?_, ?_⟩
  · exact (C1_idempotent envTimeout store0 "123456" entrySub (by decide) (by decide)
      (by decide)).1
  · exact (C1_idempotent envTimeout store0 "123456" entrySub (by decide) (by decide)
      (by decide)).2

theorem C6_one_inflight_witness :
    nodupKeys store0 ∧
    countActive "R2" (verify_command [6, 5, 4, 3, 2, 1] 5 "2026-01-01T00:00:05+00:00"
      "R2" "Bob" store0).fst ≤ 1 ∧
    countActive "R2" (process_verified_codes envTimeout store0).store ≤ 1 ∧
    countActive "R2" (cleanup_command 2000 store0) ≤ 1 := by
  have h := C6_one_inflight [6, 5, 4, 3, 2, 1] 5 "2026-01-01T00:00:05+00:00" "R2" "Bob"
    envTimeout 2000 store0 (by decide)
    (fun u => le_trans (List.countP_le_length (activeFor u)) (by decide))
  exact ⟨by decide, h.1 "R2", h.2.1 "R2", h.2.2.1 "R2"⟩

theorem C8_timeout_vs_notfound_witness :
    entrySub.verified = true ∧ entrySub.processed = false ∧
    uidFalsy entrySub.discord_user_id = false ∧
    envTimeout.mojang entrySub.minecraft_username = MojangResp.timeout ∧
    env404.mojang entrySub.minecraft_username = MojangResp.http ⟨404, "", ""⟩ ∧
    lookupStore (process_verified_codes envTimeout [("123456", entrySub)]).store "123456" =
      some { entrySub with processed := true, error := some "Mojang API timeout" } ∧
    lookupStore (process_verified_codes env404 [("123456", entrySub)]).store "123456" =
      some { entrySub with processed := true, error := some "Minecraft account not found" } := by
  have h := C8_timeout_vs_notfound envTimeout env404 "123456" entrySub "" ""
    rfl rfl rfl rfl rfl
  exact ⟨rfl, rfl, rfl, rfl, rfl, h.1, h.2.1⟩

theorem C9_exactly_one_rank_role_witness :
    (0 : Nat) ∉ ([1, 2, 3, 4] : List Nat) ∧
    (assign_guild_rank_role ⟨1, 2, 3, 4⟩ ⟨[1, 2, 3, 4], false, false⟩ [3]
      "Guild Officer").fst = some 2 ∧
    2 ∈ (assign_guild_rank_role ⟨1, 2, 3, 4⟩ ⟨[1, 2, 3, 4], false, false⟩ [3]
      "Guild Officer").snd ∧
    3 ∉ (assign_guild_rank_role ⟨1, 2, 3, 4⟩ ⟨[1, 2, 3, 4], false, false⟩ [3]
      "Guild Officer").snd := by
  have h := C9_exactly_one_rank_role ⟨1, 2, 3, 4⟩ ⟨[1, 2, 3, 4], false, false⟩ [3]
    "Guild Officer" 2 (by decide) (by decide) rfl (by decide)
  exact ⟨by decide, by decide, h.2.1, h.2.2 3 (by decide) (by decide)⟩

theorem C10_missing_requester_skipped_witness :
    nodupKeys storeNoUid ∧ ("777777", entryNoUid) ∈ storeNoUid ∧
    entryNoUid.verified = true ∧ uidFalsy entryNoUid.discord_user_id = true ∧
    lookupStore (tickN envTimeout 3 storeNoUid) "777777" = some entryNoUid ∧
    countLookup "777777"
      (process_verified_codes envTimeout (tickN envTimeout 3 storeNoUid)).events = 0 := by
  have h := C10_missing_requester_skipped envTimeout 3 storeNoUid "777777" entryNoUid
    (by decide) (by decide) rfl rfl
  exact ⟨by decide, by decide, rfl, rfl, h.1, h.2⟩


end MSGA
